import Mathlib

/-!
A shallow embedding of `focal_stats.py` (repository `exif-stats`), covering the
format filter, the EXIF extraction and aggregation loop of `process_images`,
the discovery walk `list_cameras`, the camera ordering and coloring, and the
shutter-speed histogram binning and tick logic.  Numeric tag values are
modelled as exact rationals; Python mutation of `camera_data` is threaded as
explicit registry state; Python exceptions are explicit values.
-/

namespace FocalStats

/-- ASCII lower-casing of one character, the part of Python's `str.lower`
relevant to extension matching and the camera-name filter. -/
def charLower (c : Char) : Char :=
  match c with
  | 'A' => 'a' | 'B' => 'b' | 'C' => 'c' | 'D' => 'd' | 'E' => 'e' | 'F' => 'f'
  | 'G' => 'g' | 'H' => 'h' | 'I' => 'i' | 'J' => 'j' | 'K' => 'k' | 'L' => 'l'
  | 'M' => 'm' | 'N' => 'n' | 'O' => 'o' | 'P' => 'p' | 'Q' => 'q' | 'R' => 'r'
  | 'S' => 's' | 'T' => 't' | 'U' => 'u' | 'V' => 'v' | 'W' => 'w' | 'X' => 'x'
  | 'Y' => 'y' | 'Z' => 'z'
  | other => other

/-- Python `s.lower()`. -/
def pyLower (s : String) : String := ⟨s.data.map charLower⟩

/-- Prefix test on character lists. -/
def charListPrefix : List Char → List Char → Bool
  | [], _ => true
  | _ :: _, [] => false
  | a :: as, b :: bs => a == b && charListPrefix as bs

/-- Python `s.endswith(suffix)`. -/
def pyEndsWith (s suffix : String) : Bool :=
  charListPrefix suffix.data.reverse s.data.reverse

/-- A character Python's `str.strip()` removes: ASCII whitespace. -/
def isSpaceChar (c : Char) : Bool :=
  c == ' ' || c == '\t' || c == '\n' || c == '\r'

/-- Python `s.strip()`: remove leading and trailing whitespace. -/
def pyStrip (s : String) : String :=
  ⟨(((s.data.dropWhile isSpaceChar).reverse.dropWhile isSpaceChar).reverse : List Char)⟩

/-- Python string `<`: lexicographic comparison by code point. -/
def charListLt : List Char → List Char → Bool
  | [], [] => false
  | [], _ :: _ => true
  | _ :: _, [] => false
  | a :: as, b :: bs =>
    if a.toNat < b.toNat then true
    else if b.toNat < a.toNat then false
    else charListLt as bs

/-- Python string `<=`, used through `sorted` on camera names. -/
def pyStrLe (a b : String) : Bool := !charListLt b.data a.data

/-- Supported-format check, from `is_supported_image` (focal_stats.py lines
16-28).  The HEIF capability flag (`HEIF_SUPPORTED`, resolved once at process
start, lines 8-14) is passed explicitly; an `endswith` call on a tuple of
suffixes is the disjunction over its members. -/
def is_supported_image (heifSupported : Bool) (filename : String) : Bool :=
  let lower_name := pyLower filename
  if pyEndsWith lower_name ".jpg" || pyEndsWith lower_name ".jpeg" ||
      pyEndsWith lower_name ".jpe" || pyEndsWith lower_name ".jfif" then
    true
  else if heifSupported && (pyEndsWith lower_name ".heic" || pyEndsWith lower_name ".heif") then
    true
  else
    false

/-- An EXIF tag value as the extraction code sees it: a plain number or a
tuple.  Rational pairs are 2-tuples; other tuple lengths are representable
because nothing in the code rules them out.  Numbers are exact rationals. -/
inductive TagVal where
  | num (q : ℚ)
  | tup (l : List ℚ)
deriving DecidableEq

/-- Python truthiness of a tag value, as tested by the guard
`if time and stop and fd` on line 127: a number is truthy iff nonzero, a
tuple iff non-empty. -/
def TagVal.truthy : TagVal → Bool
  | .num q => decide (q ≠ 0)
  | .tup l => !l.isEmpty

/-- Python truthiness of an optional tag value (`None` is falsy). -/
def optTruthy : Option TagVal → Bool
  | none => false
  | some v => v.truthy

/-- The Python exceptions the normalization of one tag value can raise:
`ZeroDivisionError` from `x[0]/float(x[1])` when `x[1] == 0`, and
`IndexError` from indexing a tuple shorter than two.  The `except` clause on
line 147 catches `KeyError, TypeError, ZeroDivisionError` but not
`IndexError`. -/
inductive PyExc where
  | zeroDiv
  | indexErr
deriving DecidableEq

/-- Normalization of one tag value, from lines 133-146: a tuple is read as
`x[0]/float(x[1])`, a plain number as `float(x)`. -/
def TagVal.normalize : TagVal → Except PyExc ℚ
  | .num q => .ok q
  | .tup [] => .error .indexErr
  | .tup [_] => .error .indexErr
  | .tup (a :: b :: _) => if b = 0 then .error .zeroDiv else .ok (a / b)

/-- Per-camera record of parallel value sequences, from the dict literal
`{'f': [], 't': [], 'focus': []}` created on line 130. -/
structure Series where
  f : List ℚ
  t : List ℚ
  focus : List ℚ
deriving DecidableEq

def emptySeries : Series := ⟨[], [], []⟩

/-- Model of `camera_data`: the insertion-ordered mapping from camera name to its
series (Python dicts preserve insertion order, which matters because
`sorted` is stable). -/
abbrev Registry := List (String × Series)

/-- Dictionary lookup `camera_data[name]`. -/
def lookupReg : Registry → String → Option Series
  | [], _ => none
  | (k, s) :: rest, name => if k = name then some s else lookupReg rest name

/-- In-place mutation of the series stored under `name`. -/
def updateReg : Registry → String → (Series → Series) → Registry
  | [], _, _ => []
  | (k, s) :: rest, name, g =>
    if k = name then (k, g s) :: rest else (k, s) :: updateReg rest name g

/-- Lines 129-130: `if camera_name not in camera_data:` create the empty
entry (appended at the end, matching dict insertion order). -/
def ensureEntry (reg : Registry) (name : String) : Registry :=
  match lookupReg reg name with
  | some _ => reg
  | none => reg ++ [(name, emptySeries)]

/-- The Exif IFD sub-dictionary (tag group 34665) with the three capture
settings read on lines 123-125 (ExposureTime 33434, FNumber 33437,
FocalLength 37386). -/
structure Ifd where
  time : Option TagVal
  stop : Option TagVal
  fd : Option TagVal

/-- The primary tag dictionary of one image: `Make` (271), `Model` (272) and
the optional nested Exif IFD.  An image whose `getexif()` result is
empty/falsy is modelled as having no `ExifData` at all (the `if exif_data:`
guard on line 102). -/
structure ExifData where
  make : Option String
  model : Option String
  ifd : Option Ifd

/-- Line 120: `exif_ifd = exif_data.get_ifd(34665) if 34665 in exif_data
else {}`, followed by `exif_ifd.get(33434)` — absent IFD behaves as an empty
dictionary. -/
def ExifData.getTime (ed : ExifData) : Option TagVal := ed.ifd.bind Ifd.time

def ExifData.getStop (ed : ExifData) : Option TagVal := ed.ifd.bind Ifd.stop

def ExifData.getFd (ed : ExifData) : Option TagVal := ed.ifd.bind Ifd.fd

/-- Python truthiness of an optional string tag: `None` and `""` are falsy. -/
def strTruthy : Option String → Bool
  | none => false
  | some s => !(s == "")

/-- Camera-name resolution from lines 108-115.  Returns `none` when
`camera_name` ends up `None`; the result may still be the empty string (make
and model both whitespace-only), which the guard on line 118 then treats as
falsy. -/
def cameraNameOf (make mdl : Option String) : Option String :=
  if strTruthy make && strTruthy mdl then
    some (pyStrip (make.getD "" ++ " " ++ mdl.getD ""))
  else if strTruthy mdl then mdl
  else if strTruthy make then make
  else none

/-- Contiguous-substring test over character lists, the semantics of
Python's `a in b` for strings. -/
def containsSub (haystack needle : List Char) : Bool :=
  match haystack with
  | [] => needle.isEmpty
  | c :: t => charListPrefix needle (c :: t) || containsSub t needle

/-- Python `needle in haystack` on strings. -/
def strContains (haystack needle : String) : Bool :=
  containsSub haystack.data needle.data

/-- The camera-filter guard on line 118: `camera_name and ((camera_type is
None) or (camera_type.lower() in camera_name.lower()))`. -/
def passesFilter (cameraType : Option String) (name : String) : Bool :=
  !(name == "") &&
    (match cameraType with
     | none => true
     | some ct => strContains (pyLower name) (pyLower ct))

/-- Lines 127-146: create the registry entry if needed, then append the
normalized aperture (`'f'`), exposure time (`'t'`) and focal length
(`'focus'`), in that source order.  An exception stops the remaining appends
but keeps the mutations already made, because Python mutates `camera_data`
in place. -/
def appendSettings (reg : Registry) (name : String) (time stop fd : TagVal) :
    Registry × Option PyExc :=
  let reg1 := ensureEntry reg name
  match stop.normalize with
  | .error e => (reg1, some e)
  | .ok vf =>
    let reg2 := updateReg reg1 name fun s => { s with f := s.f ++ [vf] }
    match time.normalize with
    | .error e => (reg2, some e)
    | .ok vt =>
      let reg3 := updateReg reg2 name fun s => { s with t := s.t ++ [vt] }
      match fd.normalize with
      | .error e => (reg3, some e)
      | .ok vd => (updateReg reg3 name fun s => { s with focus := s.focus ++ [vd] }, none)

/-- The body of the `try` on lines 103-146 for one image with truthy EXIF:
resolve the camera name, apply the filter, and, when all three capture
settings are present and truthy (`if time and stop and fd`, line 127),
append them.  Returns the (possibly partially) updated registry and the
exception raised, if any. -/
def tryBody (reg : Registry) (cameraType : Option String) (ed : ExifData) :
    Registry × Option PyExc :=
  match cameraNameOf ed.make ed.model with
  | none => (reg, none)
  | some nm =>
    if passesFilter cameraType nm then
      match ed.getTime, ed.getStop, ed.getFd with
      | some time, some stop, some fd =>
        if time.truthy && stop.truthy && fd.truthy then
          appendSettings reg nm time stop fd
        else (reg, none)
      | _, _, _ => (reg, none)
    else (reg, none)

/-- Diagnostic printed by the `except` on line 148. -/
def exifErrMsg (filename : String) : String :=
  "Error while reading EXIF data in image " ++ filename

/-- Diagnostic printed by the `except` on line 150. -/
def openErrMsg (filename : String) : String :=
  "Error opening image " ++ filename

/-- One file encountered by a walk: `unreadable` models a file whose
`Image.open` raises `IOError`/`OSError`; `image name none` a file whose
`getexif()` is empty or missing. -/
inductive File where
  | unreadable (name : String)
  | image (name : String) (exif : Option ExifData)

def File.name : File → String
  | .unreadable n => n
  | .image n _ => n

/-- Processing of one candidate file inside the walk of `process_images`
(lines 95-150): returns the new registry, the diagnostics printed for this
file, and whether an uncaught exception escaped (only `IndexError` can,
since it is not in the `except` clause on line 147; `ZeroDivisionError` is
caught there and reported). -/
def processOneFile (heif : Bool) (cameraType : Option String) (reg : Registry)
    (file : File) : Registry × List String × Bool :=
  if is_supported_image heif file.name then
    match file with
    | .unreadable n => (reg, [openErrMsg n], false)
    | .image _ none => (reg, [], false)
    | .image n (some ed) =>
      match tryBody reg cameraType ed with
      | (reg', none) => (reg', [], false)
      | (reg', some .zeroDiv) => (reg', [exifErrMsg n], false)
      | (reg', some .indexErr) => (reg', [], true)
  else (reg, [], false)

/-- The directory walk of `process_images` (lines 92-150), folded over the
deterministic file sequence produced by `os.walk`; an uncaught exception
aborts the remainder of the walk. -/
def walkFiles (heif : Bool) (cameraType : Option String) :
    List File → Registry → Registry × List String × Bool
  | [], reg => (reg, [], false)
  | file :: rest, reg =>
    match processOneFile heif cameraType reg file with
    | (reg', log, true) => (reg', log, true)
    | (reg', log, false) =>
      let r := walkFiles heif cameraType rest reg'
      (r.1, log ++ r.2.1, r.2.2)

/-- The aggregation phase of `process_images`: walk the files starting from
the empty registry (`camera_data = {}`, line 86).  A non-existent or
inaccessible root path is modelled by an empty file list, since `os.walk`
with the default `onerror=None` silently yields nothing for it. -/
def process_images (heif : Bool) (cameraType : Option String) (files : List File) :
    Registry × List String × Bool :=
  walkFiles heif cameraType files []

/-- The per-camera count used by `get_camera_order`: `len(data['t'])`
(line 68). -/
def sampleCount (reg : Registry) (name : String) : ℕ :=
  match lookupReg reg name with
  | some s => s.t.length
  | none => 0

/-- Function `get_camera_order` (lines 60-72): camera names sorted by descending
`len(data['t'])`.  Python's `sorted(..., reverse=True)` is a stable
descending sort, modelled by the stable `List.insertionSort` with the
reversed comparison; dict key enumeration order is insertion order. -/
def get_camera_order (reg : Registry) : List String :=
  List.insertionSort (fun a b => sampleCount reg b ≤ sampleCount reg a) (reg.map Prod.fst)

/-- A color drawn from a matplotlib qualitative palette: `tab10 i` is the
`i`-th color of `tab10`, `tab20 q` the color of `tab20` at fraction `q`. -/
inductive PaletteColor where
  | tab10 (i : ℕ)
  | tab20 (q : ℚ)
deriving DecidableEq

/-- Function `get_camera_colors` (lines 74-83): one color per camera, `tab10` indexed
by position for at most ten cameras, `tab20` sampled evenly otherwise. -/
def get_camera_colors (cameras : List String) : List PaletteColor :=
  if cameras.length ≤ 10 then
    (List.range cameras.length).map PaletteColor.tab10
  else
    (List.range cameras.length).map fun (i : ℕ) =>
      PaletteColor.tab20 ((i : ℚ) / (cameras.length : ℚ))

/-- The per-file body of `list_cameras` (lines 39-56) for a file that passed
the format filter: collect the resolved camera name into the set; an
unreadable file is skipped by the bare `except ...: pass` on lines 55-56
with no diagnostic.  The set is modelled as a duplicate-free list in first
insertion order (the order is irrelevant after the final sort). -/
def listCamerasStep (acc : List String) (file : File) : List String :=
  match file with
  | .unreadable _ => acc
  | .image _ none => acc
  | .image _ (some ed) =>
    match cameraNameOf ed.make ed.model with
    | some nm => if acc.contains nm then acc else acc ++ [nm]
    | none => acc

/-- Function `list_cameras` (lines 30-58): walk every file, collect the set of camera
names of supported images, and return it sorted, paired with the
diagnostics printed during the walk (there are none: unreadable files are
skipped silently). -/
def list_cameras (heif : Bool) (files : List File) : List String × List String :=
  let names := files.foldl
    (fun acc file => if is_supported_image heif file.name then listCamerasStep acc file else acc) []
  (List.insertionSort (fun a b => pyStrLe a b = true) names, [])

/-- Model of `np.linspace a b n` with the default inclusive endpoint:
`a + i*(b-a)/(n-1)` for `i = 0, …, n-1`. -/
def linspace (a b : ℚ) (n : ℕ) : List ℚ :=
  (List.range n).map fun (i : ℕ) => a + (b - a) * (i : ℚ) / ((n : ℚ) - 1)

/-- Lines 195-199: the exponents `x` of the shutter-speed bin edges `2**x`,
namely `np.linspace(min_exp - 1, max_exp, 30)` with
`min_exp = floor(log2(min_time))` and `max_exp = ceil(log2(max_time))`.
`Int.log 2` and `Int.clog 2` are the exact floor and ceiling of `log2` on
positive rationals.  The edges themselves are `2^x` for these exponents;
since `x ↦ 2^x` is injective, edge counts and bin counts can be read off
this exponent list. -/
def shutterBinExponents (minTime maxTime : ℚ) : List ℚ :=
  linspace ((Int.log 2 minTime : ℚ) - 1) ((Int.clog 2 maxTime : ℚ)) 30

/-- Number of histogram bins delimited by a sequence of bin edges
(matplotlib semantics for a sequence-valued `bins`: `n` edges delimit
`n - 1` bins). -/
def numBinsOfEdges (edges : List ℚ) : ℕ := edges.length - 1

/-- The predefined standard full-stop shutter speeds from line 220. -/
def standard_speeds : List ℚ :=
  [1/8000, 1/4000, 1/2000, 1/1000, 1/500, 1/250, 1/125, 1/60, 1/30, 1/15,
   1/8, 1/4, 1/2, 1, 2, 4, 8, 16, 30]

/-- Line 222: the tick positions, the standard speeds lying within the
inclusive interval `[min_time/2, max_time*2]`. -/
def validTicks (minTime maxTime : ℚ) : List ℚ :=
  standard_speeds.filter fun s => decide (minTime / 2 ≤ s ∧ s ≤ maxTime * 2)

/-- Python's `round` to an integer: nearest integer, ties to even. -/
def pyRound (x : ℚ) : ℤ :=
  let fl := ⌊x⌋
  let frac := x - fl
  if frac < 1/2 then fl
  else if 1/2 < frac then fl + 1
  else if fl % 2 = 0 then fl else fl + 1

/-- The tick formatter `shutter_speed_format` (lines 210-217): at or above
one second the value is printed in seconds with a trailing double-quote
mark (one decimal place when fractional); below one second it is printed as
the reciprocal rounded to the nearest integer. -/
def shutter_speed_format (x : ℚ) : String :=
  if 1 ≤ x then
    if x = (⌊x⌋ : ℚ) then toString ⌊x⌋ ++ "\""
    else
      let d := pyRound (10 * x)
      toString (d / 10) ++ "." ++ toString (d % 10) ++ "\""
  else
    toString (pyRound (1 / x))

/-- The JPEG extensions the format filter always accepts (spec: `.jpg`,
`.jpeg`, `.jpe`, `.jfif`). -/
def jpegExtensions : List String := [".jpg", ".jpeg", ".jpe", ".jfif"]

/-- The HEIF extensions accepted only with the decoder capability (spec:
`.heic`, `.heif`). -/
def heifExtensions : List String := [".heic", ".heif"]

/-- All three sequences of a series contain only strictly positive values. -/
def SeriesPositive (s : Series) : Prop :=
  (∀ v ∈ s.f, 0 < v) ∧ (∀ v ∈ s.t, 0 < v) ∧ (∀ v ∈ s.focus, 0 < v)

/-- A tag value whose normalization on lines 133-146 is sure to be strictly
positive: a positive plain number, or a tuple whose first two entries are
positive.  (Mere Python truthiness — nonzero number or non-empty tuple —
does not imply this.) -/
def TagVal.positive : TagVal → Prop
  | .num q => 0 < q
  | .tup [] => False
  | .tup [_] => False
  | .tup (a :: b :: _) => 0 < a ∧ 0 < b

/-- An optional tag is benign when absent or positive-valued. -/
def posTagO : Option TagVal → Prop
  | none => True
  | some v => v.positive

/-- Every capture-settings tag of the file, when present, normalizes to a
strictly positive value. -/
def File.goodTags : File → Prop
  | .unreadable _ => True
  | .image _ none => True
  | .image _ (some ed) => posTagO ed.getTime ∧ posTagO ed.getStop ∧ posTagO ed.getFd

/-- Every registry entry has a non-empty camera name. -/
def RegNames (reg : Registry) : Prop := ∀ p ∈ reg, p.1 ≠ ""

/-- Every registry entry carries only strictly positive values. -/
def RegPos (reg : Registry) : Prop := ∀ p ∈ reg, SeriesPositive p.2

/-- A test image whose exposure-time rational has a zero denominator while
the aperture rational `(28, 10)` is valid: the aperture is appended before
the `ZeroDivisionError` fires. -/
def zeroDenomTimeFile : File := File.image "a.jpg" (some
  { make := some "Acme", model := some "X1",
    ifd := some { time := some (.tup [1, 0]), stop := some (.tup [28, 10]),
                  fd := some (.tup [50, 1]) } })

/-- A test image whose aperture rational `(4, 0)` has a zero denominator:
the exception fires before any append, but after the registry entry was
created. -/
def zeroDenomStopFile : File := File.image "b.jpg" (some
  { make := some "Acme", model := some "X1",
    ifd := some { time := some (.tup [1, 200]), stop := some (.tup [4, 0]),
                  fd := some (.tup [50, 1]) } })

/-- A test image with the focal-length tag missing entirely. -/
def missingFdFile : File := File.image "c.jpg" (some
  { make := some "Acme", model := some "X1",
    ifd := some { time := some (.tup [1, 200]), stop := some (.tup [4, 1]),
                  fd := none } })

/-- A test image whose aperture is the truthy rational pair `(0, 5)`: it
normalizes to `0`, which is appended although it is not positive. -/
def zeroNumStopFile : File := File.image "a.jpg" (some
  { make := some "Acme", model := some "X1",
    ifd := some { time := some (.tup [1, 200]), stop := some (.tup [0, 5]),
                  fd := some (.tup [50, 1]) } })

/-- A test image with ordinary positive capture settings. -/
def goodFile : File := File.image "a.jpg" (some
  { make := some "Acme", model := some "X1",
    ifd := some { time := some (.tup [1, 200]), stop := some (.tup [28, 10]),
                  fd := some (.tup [50, 1]) } })

/-- A test image whose focal-length tag is the plain number `0` (falsy). -/
def zeroFdEd : ExifData :=
  { make := some "Acme", model := some "X1",
    ifd := some { time := some (.tup [1, 200]), stop := some (.tup [28, 10]),
                  fd := some (.num 0) } }

/-- The EXIF data of `zeroDenomStopFile`, used to exercise the per-file step
directly. -/
def zeroDenomStopEd : ExifData :=
  { make := some "Acme", model := some "X1",
    ifd := some { time := some (.tup [1, 200]), stop := some (.tup [4, 0]),
                  fd := some (.tup [50, 1]) } }

/-- A registry with three cameras whose sample counts are 5, 20 and 1. -/
def exampleRegistry : Registry :=
  [("A", ⟨[], List.replicate 5 1, []⟩), ("B", ⟨[], List.replicate 20 1, []⟩),
   ("C", ⟨[], List.replicate 1 1, []⟩)]

/-! Helper lemmas about the registry invariants. -/

theorem normalize_pos {v : TagVal} (hv : v.positive) {q : ℚ}
    (h : v.normalize = Except.ok q) : 0 < q := by
  cases v with
  | num p =>
    simp only [TagVal.normalize, Except.ok.injEq] at h
    simp only [TagVal.positive] at hv
    exact h ▸ hv
  | tup l =>
    match l with
    | [] => simp [TagVal.positive] at hv
    | [_] => simp [TagVal.positive] at hv
    | a :: b :: rest =>
      simp only [TagVal.positive] at hv
      simp only [TagVal.normalize] at h
      rw [if_neg (by exact ne_of_gt hv.2)] at h
      cases h
      exact div_pos hv.1 hv.2

theorem mem_updateReg {reg : Registry} {name : String} {g : Series → Series}
    {p : String × Series} (hp : p ∈ updateReg reg name g) :
    p ∈ reg ∨ ∃ s : Series, (p.1, s) ∈ reg ∧ p.2 = g s := by
  induction reg with
  | nil => simp [updateReg] at hp
  | cons q rest ih =>
    obtain ⟨k, s⟩ := q
    rw [updateReg] at hp
    by_cases hk : k = name
    · rw [if_pos hk] at hp
      rcases List.mem_cons.mp hp with h1 | h1
      · right
        exact ⟨s, by simp [h1], by simp [h1]⟩
      · left
        exact List.mem_cons_of_mem _ h1
    · rw [if_neg hk] at hp
      rcases List.mem_cons.mp hp with h1 | h1
      · left
        simp [h1]
      · rcases ih h1 with h2 | ⟨s2, hs2, hgs⟩
        · left
          exact List.mem_cons_of_mem _ h2
        · right
          exact ⟨s2, List.mem_cons_of_mem _ hs2, hgs⟩

theorem regPos_updateReg {reg : Registry} {name : String} {g : Series → Series}
    (h : RegPos reg) (hg : ∀ s, SeriesPositive s → SeriesPositive (g s)) :
    RegPos (updateReg reg name g) := by
  intro p hp
  rcases mem_updateReg hp with h1 | ⟨s, hs, hss⟩
  · exact h p h1
  · exact hss ▸ hg s (h (p.1, s) hs)

theorem regNames_updateReg {reg : Registry} {name : String} {g : Series → Series}
    (h : RegNames reg) : RegNames (updateReg reg name g) := by
  intro p hp
  rcases mem_updateReg hp with h1 | ⟨s, hs, _⟩
  · exact h p h1
  · exact h (p.1, s) hs

theorem seriesPositive_empty : SeriesPositive emptySeries := by
  refine ⟨?_, ?_, ?_⟩ <;> simp [emptySeries]

theorem regPos_ensureEntry {reg : Registry} {name : String} (h : RegPos reg) :
    RegPos (ensureEntry reg name) := by
  unfold ensureEntry
  cases lookupReg reg name with
  | some s => exact h
  | none =>
    intro p hp
    rcases List.mem_append.mp hp with h1 | h1
    · exact h p h1
    · rcases List.mem_singleton.mp h1 with rfl
      exact seriesPositive_empty

theorem regNames_ensureEntry {reg : Registry} {name : String} (h : RegNames reg)
    (hn : name ≠ "") : RegNames (ensureEntry reg name) := by
  unfold ensureEntry
  cases lookupReg reg name with
  | some s => exact h
  | none =>
    intro p hp
    rcases List.mem_append.mp hp with h1 | h1
    · exact h p h1
    · rcases List.mem_singleton.mp h1 with rfl
      exact hn

theorem seriesPos_appendF {s : Series} {v : ℚ} (hs : SeriesPositive s) (hv : 0 < v) :
    SeriesPositive { s with f := s.f ++ [v] } := by
  refine ⟨?_, hs.2.1, hs.2.2⟩
  intro x hx
  rcases List.mem_append.mp hx with h1 | h1
  · exact hs.1 x h1
  · rcases List.mem_singleton.mp h1 with rfl
    exact hv

theorem seriesPos_appendT {s : Series} {v : ℚ} (hs : SeriesPositive s) (hv : 0 < v) :
    SeriesPositive { s with t := s.t ++ [v] } := by
  refine ⟨hs.1, ?_, hs.2.2⟩
  intro x hx
  rcases List.mem_append.mp hx with h1 | h1
  · exact hs.2.1 x h1
  · rcases List.mem_singleton.mp h1 with rfl
    exact hv

theorem seriesPos_appendFocus {s : Series} {v : ℚ} (hs : SeriesPositive s) (hv : 0 < v) :
    SeriesPositive { s with focus := s.focus ++ [v] } := by
  refine ⟨hs.1, hs.2.1, ?_⟩
  intro x hx
  rcases List.mem_append.mp hx with h1 | h1
  · exact hs.2.2 x h1
  · rcases List.mem_singleton.mp h1 with rfl
    exact hv

theorem appendSettings_pos {reg : Registry} {name : String} {time stop fd : TagVal}
    (h : RegPos reg) (ht : time.positive) (hs : stop.positive) (hf : fd.positive) :
    RegPos (appendSettings reg name time stop fd).1 := by
  unfold appendSettings
  cases hns : stop.normalize with
  | error e => exact regPos_ensureEntry h
  | ok vf =>
    have hvf := normalize_pos hs hns
    cases hnt : time.normalize with
    | error e =>
      exact regPos_updateReg (regPos_ensureEntry h) fun s hsp => seriesPos_appendF hsp hvf
    | ok vt =>
      have hvt := normalize_pos ht hnt
      cases hnf : fd.normalize with
      | error e =>
        exact regPos_updateReg
          (regPos_updateReg (regPos_ensureEntry h) fun s hsp => seriesPos_appendF hsp hvf)
          fun s hsp => seriesPos_appendT hsp hvt
      | ok vd =>
        have hvd := normalize_pos hf hnf
        exact regPos_updateReg
          (regPos_updateReg
            (regPos_updateReg (regPos_ensureEntry h) fun s hsp => seriesPos_appendF hsp hvf)
            fun s hsp => seriesPos_appendT hsp hvt)
          fun s hsp => seriesPos_appendFocus hsp hvd

theorem appendSettings_names {reg : Registry} {name : String} {time stop fd : TagVal}
    (h : RegNames reg) (hn : name ≠ "") :
    RegNames (appendSettings reg name time stop fd).1 := by
  unfold appendSettings
  cases stop.normalize with
  | error e => exact regNames_ensureEntry h hn
  | ok vf =>
    cases time.normalize with
    | error e => exact regNames_updateReg (regNames_ensureEntry h hn)
    | ok vt =>
      cases fd.normalize with
      | error e => exact regNames_updateReg (regNames_updateReg (regNames_ensureEntry h hn))
      | ok vd =>
        exact regNames_updateReg
          (regNames_updateReg (regNames_updateReg (regNames_ensureEntry h hn)))

theorem passesFilter_name_ne {ct : Option String} {nm : String}
    (h : passesFilter ct nm = true) : nm ≠ "" := by
  unfold passesFilter at h
  intro hnm
  rw [hnm] at h
  simp at h

theorem tryBody_pos {reg : Registry} {ct : Option String} {ed : ExifData}
    (h : RegPos reg)
    (hg : posTagO ed.getTime ∧ posTagO ed.getStop ∧ posTagO ed.getFd) :
    RegPos (tryBody reg ct ed).1 := by
  unfold tryBody
  cases hcn : cameraNameOf ed.make ed.model with
  | none => exact h
  | some nm =>
    by_cases hpf : passesFilter ct nm = true
    · simp only [hpf, if_true]
      cases hT : ed.getTime with
      | none => exact h
      | some time =>
        cases hS : ed.getStop with
        | none => exact h
        | some stop =>
          cases hF : ed.getFd with
          | none => exact h
          | some fd =>
            by_cases htr : (time.truthy && stop.truthy && fd.truthy) = true
            · simp only [htr, if_true]
              have h1 : time.positive := by
                have := hg.1; rw [hT] at this; exact this
              have h2 : stop.positive := by
                have := hg.2.1; rw [hS] at this; exact this
              have h3 : fd.positive := by
                have := hg.2.2; rw [hF] at this; exact this
              exact appendSettings_pos h h1 h2 h3
            · simp only [Bool.not_eq_true] at htr
              simp only [htr]
              exact h
    · simp only [Bool.not_eq_true] at hpf
      simp only [hpf]
      exact h

theorem tryBody_names {reg : Registry} {ct : Option String} {ed : ExifData}
    (h : RegNames reg) : RegNames (tryBody reg ct ed).1 := by
  unfold tryBody
  cases hcn : cameraNameOf ed.make ed.model with
  | none => exact h
  | some nm =>
    by_cases hpf : passesFilter ct nm = true
    · simp only [hpf, if_true]
      cases hT : ed.getTime with
      | none => exact h
      | some time =>
        cases hS : ed.getStop with
        | none => exact h
        | some stop =>
          cases hF : ed.getFd with
          | none => exact h
          | some fd =>
            by_cases htr : (time.truthy && stop.truthy && fd.truthy) = true
            · simp only [htr, if_true]
              exact appendSettings_names h (passesFilter_name_ne hpf)
            · simp only [Bool.not_eq_true] at htr
              simp only [htr]
              exact h
    · simp only [Bool.not_eq_true] at hpf
      simp only [hpf]
      exact h

theorem processOneFile_pos {heif : Bool} {ct : Option String} {reg : Registry} {file : File}
    (h : RegPos reg) (hg : file.goodTags) :
    RegPos (processOneFile heif ct reg file).1 := by
  unfold processOneFile
  by_cases hs : is_supported_image heif file.name = true
  · rw [if_pos hs]
    cases file with
    | unreadable n => exact h
    | image n oe =>
      cases oe with
      | none => exact h
      | some ed =>
        have hp : RegPos (tryBody reg ct ed).1 := by
          refine tryBody_pos h ?_
          simpa [File.goodTags] using hg
        rcases htb : tryBody reg ct ed with ⟨reg2, exc⟩
        rw [htb] at hp
        simp only [htb]
        cases exc with
        | none => exact hp
        | some e => cases e <;> exact hp
  · rw [if_neg hs]
    exact h

theorem processOneFile_names {heif : Bool} {ct : Option String} {reg : Registry} {file : File}
    (h : RegNames reg) : RegNames (processOneFile heif ct reg file).1 := by
  unfold processOneFile
  by_cases hs : is_supported_image heif file.name = true
  · rw [if_pos hs]
    cases file with
    | unreadable n => exact h
    | image n oe =>
      cases oe with
      | none => exact h
      | some ed =>
        have hp : RegNames (tryBody reg ct ed).1 := tryBody_names h
        rcases htb : tryBody reg ct ed with ⟨reg2, exc⟩
        rw [htb] at hp
        simp only [htb]
        cases exc with
        | none => exact hp
        | some e => cases e <;> exact hp
  · rw [if_neg hs]
    exact h

theorem walkFiles_pos {heif : Bool} {ct : Option String} {files : List File} {reg : Registry}
    (h : RegPos reg) (hg : ∀ file ∈ files, file.goodTags) :
    RegPos (walkFiles heif ct files reg).1 := by
  induction files generalizing reg with
  | nil => simpa [walkFiles]
  | cons file rest ih =>
    rw [walkFiles]
    have h1 : RegPos (processOneFile heif ct reg file).1 :=
      processOneFile_pos h (hg file (List.mem_cons_self _ _))
    rcases hpf : processOneFile heif ct reg file with ⟨reg2, log, crash⟩
    rw [hpf] at h1
    cases crash with
    | true => exact h1
    | false => exact ih h1 fun f hf => hg f (List.mem_cons_of_mem _ hf)

theorem walkFiles_names {heif : Bool} {ct : Option String} {files : List File} {reg : Registry}
    (h : RegNames reg) : RegNames (walkFiles heif ct files reg).1 := by
  induction files generalizing reg with
  | nil => simpa [walkFiles]
  | cons file rest ih =>
    rw [walkFiles]
    have h1 : RegNames (processOneFile heif ct reg file).1 := processOneFile_names h
    rcases hpf : processOneFile heif ct reg file with ⟨reg2, log, crash⟩
    rw [hpf] at h1
    cases crash with
    | true => exact h1
    | false => exact ih h1

theorem tryBody_falsy {reg : Registry} {ct : Option String} {ed : ExifData}
    (h : optTruthy ed.getTime = false ∨ optTruthy ed.getStop = false ∨
      optTruthy ed.getFd = false) :
    tryBody reg ct ed = (reg, none) := by
  unfold tryBody
  cases hcn : cameraNameOf ed.make ed.model with
  | none => rfl
  | some nm =>
    by_cases hpf : passesFilter ct nm = true
    · simp only [hpf, if_true]
      cases hT : ed.getTime with
      | none => rfl
      | some time =>
        cases hS : ed.getStop with
        | none => rfl
        | some stop =>
          cases hF : ed.getFd with
          | none => rfl
          | some fd =>
            have hfalse : (time.truthy && stop.truthy && fd.truthy) = false := by
              rcases h with h | h | h
              · rw [hT] at h
                simp only [optTruthy] at h
                simp [h]
              · rw [hS] at h
                simp only [optTruthy] at h
                simp [h]
              · rw [hF] at h
                simp only [optTruthy] at h
                simp [h]
            simp [hfalse]
    · simp only [Bool.not_eq_true] at hpf
      simp [hpf]

theorem lookupReg_append_self {reg : Registry} {nm : String} {s : Series}
    (h : lookupReg reg nm = none) : lookupReg (reg ++ [(nm, s)]) nm = some s := by
  induction reg with
  | nil => simp [lookupReg]
  | cons q rest ih =>
    obtain ⟨k, s2⟩ := q
    rw [lookupReg] at h
    by_cases hk : k = nm
    · rw [if_pos hk] at h
      exact absurd h (by simp)
    · rw [if_neg hk] at h
      rw [List.cons_append, lookupReg, if_neg hk]
      exact ih h

theorem mem_get_camera_order {reg : Registry} {nm : String}
    (h : nm ∈ reg.map Prod.fst) : nm ∈ get_camera_order reg := by
  unfold get_camera_order
  exact (List.perm_insertionSort _ _).mem_iff.mpr h

theorem length_get_camera_colors (cameras : List String) :
    (get_camera_colors cameras).length = cameras.length := by
  unfold get_camera_colors
  split <;> simp

theorem length_linspace_thirty (a b : ℚ) : (linspace a b 30).length = 30 := by
  unfold linspace
  rw [List.length_map, List.length_range]

theorem range_thirty_eq :
    List.range 30 = [0, 1, 2, 3, 4, 5, 6, 7, 8, 9, 10, 11, 12, 13, 14, 15, 16, 17, 18, 19,
      20, 21, 22, 23, 24, 25, 26, 27, 28, 29] := rfl

theorem head_linspace_thirty (a b : ℚ) : (linspace a b 30).head? = some a := by
  simp [linspace, range_thirty_eq]

theorem getLast_linspace_thirty (a b : ℚ) : (linspace a b 30).getLast? = some b := by
  simp [linspace, range_thirty_eq, List.getLast?]
  ring_nf
  try norm_num

theorem spacing_linspace_thirty (a b : ℚ) :
    List.zipWith (fun x y => y - x) (linspace a b 30) (linspace a b 30).tail =
      List.replicate 29 ((b - a) / 29) := by
  simp [linspace, range_thirty_eq, List.replicate]
  norm_num
  ring_nf
  try norm_num

/-! The claims. -/

/-- C1: the claim says the three per-camera sequences always have equal
length, even for files with malformed rational tags.  The code violates
this: on `zeroDenomTimeFile` (valid aperture rational `(28, 10)`, exposure
time `(1, 0)`), the aperture is appended first (line 134), then the
`ZeroDivisionError` from the exposure time aborts the remaining appends,
leaving `f` with one element and `t`, `focus` empty — and the caught
exception is reported.  The sample count `len(data['t'])` is 0 while `f`
has length 1. -/
theorem c1_partial_append_bug :
    ((lookupReg (process_images true none [zeroDenomTimeFile]).1 "Acme X1").getD
        emptySeries).f.length = 1 ∧
    ((lookupReg (process_images true none [zeroDenomTimeFile]).1 "Acme X1").getD
        emptySeries).t.length = 0 ∧
    ((lookupReg (process_images true none [zeroDenomTimeFile]).1 "Acme X1").getD
        emptySeries).focus.length = 0 ∧
    sampleCount (process_images true none [zeroDenomTimeFile]).1 "Acme X1" = 0 ∧
    (process_images true none [zeroDenomTimeFile]).2.1 = [exifErrMsg "a.jpg"] := by
  decide

/-- C2: the claim says a zero-denominator rational (or a missing field)
leaves the registry exactly as it was, with a diagnostic.  The code
violates this: on `zeroDenomStopFile` (aperture rational `(4, 0)`), the
registry entry for the camera is created before the exception, so the
registry changes from empty to one (empty-series) entry; and on
`missingFdFile` (no focal-length tag) the record is dropped with no
diagnostic at all. -/
theorem c2_record_not_dropped_atomically :
    process_images true none [zeroDenomStopFile] =
      ([("Acme X1", emptySeries)], [exifErrMsg "b.jpg"], false) ∧
    [("Acme X1", emptySeries)] ≠ ([] : Registry) ∧
    process_images true none [missingFdFile] = ([], [], false) := by
  decide

/-- C3 counterexample: with `min_time = 1/500` and `max_time = 1/30` the
shutter histogram receives 30 bin **edges** (`np.linspace(..., 30)`), which
delimit 29 bins, not the 30 bins the claim states. -/
theorem c3_thirty_edges_not_thirty_bins :
    numBinsOfEdges (shutterBinExponents (1/500) (1/30)) ≠ 30 := by
  unfold numBinsOfEdges shutterBinExponents
  rw [length_linspace_thirty]
  decide

/-- C3 amended: for every data range, the shutter-speed bin edges are `2^x`
for `x` running over `np.linspace(floor(log2 min) - 1, ceil(log2 max), 30)`:
there are exactly 30 edges (hence 29 bins), the first exponent is
`floor(log2 min_time) - 1`, the last is `ceil(log2 max_time)`, and the
exponents are linearly spaced with step `(b - a)/29`. -/
theorem c3_log2_bin_edges (minTime maxTime : ℚ) :
    (shutterBinExponents minTime maxTime).length = 30 ∧
    numBinsOfEdges (shutterBinExponents minTime maxTime) = 29 ∧
    (shutterBinExponents minTime maxTime).head? = some ((Int.log 2 minTime : ℚ) - 1) ∧
    (shutterBinExponents minTime maxTime).getLast? = some ((Int.clog 2 maxTime : ℚ)) ∧
    List.zipWith (fun x y => y - x) (shutterBinExponents minTime maxTime)
        (shutterBinExponents minTime maxTime).tail =
      List.replicate 29
        (((Int.clog 2 maxTime : ℚ) - ((Int.log 2 minTime : ℚ) - 1)) / 29) := by
  unfold shutterBinExponents
  refine ⟨length_linspace_thirty _ _, ?_, head_linspace_thirty _ _,
    getLast_linspace_thirty _ _, spacing_linspace_thirty _ _⟩
  unfold numBinsOfEdges
  rw [length_linspace_thirty]

/-- C4 counterexample: with `min_time = 1/500`, `max_time = 1/30` the filter
interval `[min_time/2, max_time*2] = [1/1000, 1/15]` is inclusive and both
endpoints are themselves standard speeds, so the selected ticks are *not*
exactly `{1/500, 1/250, 1/125, 1/60, 1/30}`. -/
theorem c4_tick_set_counterexample :
    validTicks (1/500) (1/30) ≠ [1/500, 1/250, 1/125, 1/60, 1/30] := by
  have h : validTicks (1/500) (1/30) = [1/1000, 1/500, 1/250, 1/125, 1/60, 1/30, 1/15] := by
    norm_num [validTicks, standard_speeds, List.filter]
  rw [h]
  intro heq
  have := congrArg List.length heq
  simp at this

/-- C4 amended: with `min_time = 1/500` and `max_time = 1/30` the selected
ticks are exactly `{1/1000, 1/500, 1/250, 1/125, 1/60, 1/30, 1/15}` (the
standard speeds within the inclusive interval `[1/1000, 1/15]`), and each of
these sub-second ticks is labeled by its reciprocal rounded to the nearest
integer. -/
theorem c4_ticks_and_labels :
    validTicks (1/500) (1/30) = [1/1000, 1/500, 1/250, 1/125, 1/60, 1/30, 1/15] ∧
    (validTicks (1/500) (1/30)).map shutter_speed_format =
      ["1000", "500", "250", "125", "60", "30", "15"] := by
  have h : validTicks (1/500) (1/30) = [1/1000, 1/500, 1/250, 1/125, 1/60, 1/30, 1/15] := by
    norm_num [validTicks, standard_speeds, List.filter]
  refine ⟨h, ?_⟩
  rw [h]
  norm_num [shutter_speed_format, pyRound]
  exact ⟨rfl, rfl, rfl, rfl, rfl, rfl, rfl⟩

/-- C5 counterexample: the aperture tag of `zeroNumStopFile` is the
rational pair `(0, 5)` — truthy, because a non-empty tuple is truthy — so
the record is produced and `0/5 = 0` is appended to the aperture sequence,
which is not strictly positive. -/
theorem c5_zero_aperture_counterexample :
    ¬ ∀ v ∈ ((lookupReg (process_images true none [zeroNumStopFile]).1 "Acme X1").getD
        emptySeries).f, 0 < v := by
  have h : ((lookupReg (process_images true none [zeroNumStopFile]).1 "Acme X1").getD
      emptySeries).f = [(0 : ℚ)/5] := rfl
  rw [h]
  norm_num

/-- C5 amended: every camera name in the registry is non-empty (the guard on
line 118 requires a truthy name), and *provided* every present tag
normalizes to a strictly positive value (positive plain number, or tuple
with positive first two entries), all appended values are strictly
positive.  Truthiness alone does not ensure positivity. -/
theorem c5_positive_when_inputs_positive (heif : Bool) (ct : Option String)
    (files : List File) :
    RegNames (process_images heif ct files).1 ∧
    ((∀ file ∈ files, file.goodTags) → RegPos (process_images heif ct files).1) := by
  constructor
  · exact walkFiles_names fun p hp => absurd hp (List.not_mem_nil p)
  · intro hg
    exact walkFiles_pos (fun p hp => absurd hp (List.not_mem_nil p)) hg

/-- C5 witness: a single well-formed photo yields a registry with a
non-empty camera name and positive values. -/
theorem c5_positive_when_inputs_positive_witness :
    RegNames (process_images true none [goodFile]).1 ∧
    RegPos (process_images true none [goodFile]).1 :=
  ⟨(c5_positive_when_inputs_positive true none [goodFile]).1,
   (c5_positive_when_inputs_positive true none [goodFile]).2 (by
    intro file hf
    rcases List.mem_singleton.mp hf with rfl
    refine ⟨?_, ?_, ?_⟩ <;>
      norm_num [goodFile, posTagO, TagVal.positive, ExifData.getTime, ExifData.getStop,
        ExifData.getFd])⟩

/-- C6: the format filter accepts exactly the strings whose lower-cased form
ends with one of `.jpg`, `.jpeg`, `.jpe`, `.jfif`, or — when and only when
the HEIF capability flag is set — one of `.heic`, `.heif`; every other
string is rejected.  The decision is a pure total function of the flag and
the string. -/
theorem c6_format_filter (heif : Bool) (s : String) :
    is_supported_image heif s = true ↔
      ((∃ e ∈ jpegExtensions, pyEndsWith (pyLower s) e = true) ∨
       (heif = true ∧ ∃ e ∈ heifExtensions, pyEndsWith (pyLower s) e = true)) := by
  simp only [is_supported_image, jpegExtensions, heifExtensions, List.mem_cons,
    List.not_mem_nil, or_false, exists_eq_or_imp, exists_eq_left]
  cases h1 : pyEndsWith (pyLower s) ".jpg" <;>
    cases h2 : pyEndsWith (pyLower s) ".jpeg" <;>
      cases h3 : pyEndsWith (pyLower s) ".jpe" <;>
        cases h4 : pyEndsWith (pyLower s) ".jfif" <;>
          cases h5 : pyEndsWith (pyLower s) ".heic" <;>
            cases h6 : pyEndsWith (pyLower s) ".heif" <;>
              cases heif <;> simp

/-- C7: `get_camera_order` returns a permutation of the registry's camera
names, sorted by descending sample count (stable, hence deterministic, on
ties); on the example registry with counts 5, 20 and 1 it returns the
count-20 camera first, then count-5, then count-1. -/
theorem c7_camera_order :
    (∀ reg : Registry, (get_camera_order reg).Perm (reg.map Prod.fst) ∧
      (get_camera_order reg).Pairwise fun a b => sampleCount reg b ≤ sampleCount reg a) ∧
    get_camera_order exampleRegistry = ["B", "A", "C"] := by
  constructor
  · intro reg
    constructor
    · exact List.perm_insertionSort _ _
    · haveI : IsTrans String fun a b => sampleCount reg b ≤ sampleCount reg a :=
        ⟨fun a b c h1 h2 => le_trans h2 h1⟩
      haveI : IsTotal String fun a b => sampleCount reg b ≤ sampleCount reg a :=
        ⟨fun a b => Nat.le_total _ _⟩
      exact List.sorted_insertionSort _ _
  · decide

/-- C8 counterexample: the discovery variant (`list_cameras`) silently
skips an unreadable file — its bare `except ...: pass` (lines 55-56) prints
nothing, so no diagnostic accompanies the empty result, contrary to the
claim. -/
theorem c8_silent_discovery_skip :
    list_cameras true [File.unreadable "a.jpg"] = ([], []) := by
  decide

/-- C8 amended: in the full processing walk an unreadable supported file is
skipped with a diagnostic and the walk continues; in the discovery variant
it is skipped silently (result and diagnostics unchanged); an empty (e.g.
non-existent) root yields empty results with no diagnostics and no crash in
both modes. -/
theorem c8_walk_error_semantics (heif : Bool) (ct : Option String) (n : String)
    (rest : List File) (reg : Registry) (h : is_supported_image heif n = true) :
    walkFiles heif ct (File.unreadable n :: rest) reg =
      ((walkFiles heif ct rest reg).1,
        openErrMsg n :: (walkFiles heif ct rest reg).2.1,
        (walkFiles heif ct rest reg).2.2) ∧
    list_cameras heif (File.unreadable n :: rest) = list_cameras heif rest ∧
    process_images heif ct [] = ([], [], false) ∧
    list_cameras heif [] = ([], []) := by
  refine ⟨?_, ?_, rfl, rfl⟩
  · rw [walkFiles]
    unfold processOneFile
    rw [if_pos (show is_supported_image heif (File.unreadable n).name = true from h)]
    rfl
  · unfold list_cameras
    simp [listCamerasStep]

/-- C8 witness: the amended behavior at a concrete unreadable file. -/
theorem c8_walk_error_semantics_witness :
    walkFiles true none [File.unreadable "a.jpg"] [] =
      ((walkFiles true none [] ([] : Registry)).1,
        openErrMsg "a.jpg" :: (walkFiles true none [] ([] : Registry)).2.1,
        (walkFiles true none [] ([] : Registry)).2.2) ∧
    list_cameras true [File.unreadable "a.jpg"] = list_cameras true [] ∧
    process_images true none [] = ([], [], false) ∧
    list_cameras true [] = ([], []) :=
  c8_walk_error_semantics true none "a.jpg" [] [] (by decide)

/-- C9: when all three capture-settings tags are read but any one of them is
falsy (zero plain number, empty tuple — or indeed missing), the guard on
line 127 fails: no record is produced, nothing is appended, no diagnostic
is printed, and no exception escapes — the registry is exactly unchanged. -/
theorem c9_falsy_tag_drops_record (heif : Bool) (ct : Option String) (reg : Registry)
    (n : String) (ed : ExifData)
    (h : optTruthy ed.getTime = false ∨ optTruthy ed.getStop = false ∨
      optTruthy ed.getFd = false) :
    processOneFile heif ct reg (File.image n (some ed)) = (reg, [], false) := by
  unfold processOneFile
  by_cases hs : is_supported_image heif (File.image n (some ed)).name = true
  · rw [if_pos hs]
    simp only [tryBody_falsy h]
  · rw [if_neg hs]

/-- C9 witness: a file whose focal-length tag is the plain number zero is
dropped with the registry unchanged. -/
theorem c9_falsy_tag_drops_record_witness :
    processOneFile true none [] (File.image "a.jpg" (some zeroFdEd)) = ([], [], false) :=
  c9_falsy_tag_drops_record true none [] "a.jpg" zeroFdEd (by decide)

/-- C10: the registry entry is created (lines 129-130) before any value is
normalized; if the very first file of a new camera raises the zero-denominator
anomaly on the aperture — the first field appended — the camera stays in the
registry with all three sequences empty, a diagnostic is printed, its sample
count is 0, and it still appears in the camera ordering, with the color list
parallel to the ordering. -/
theorem c10_entry_created_before_appends (heif : Bool) (ct : Option String)
    (reg : Registry) (n nm : String) (ed : ExifData) (time stop fd : TagVal)
    (hsupp : is_supported_image heif n = true)
    (hname : cameraNameOf ed.make ed.model = some nm)
    (hfilt : passesFilter ct nm = true)
    (hT : ed.getTime = some time) (hS : ed.getStop = some stop) (hF : ed.getFd = some fd)
    (htr : time.truthy = true) (hstr : stop.truthy = true) (hftr : fd.truthy = true)
    (hz : stop.normalize = Except.error PyExc.zeroDiv)
    (hnew : lookupReg reg nm = none) :
    processOneFile heif ct reg (File.image n (some ed)) =
      (reg ++ [(nm, emptySeries)], [exifErrMsg n], false) ∧
    sampleCount (reg ++ [(nm, emptySeries)]) nm = 0 ∧
    nm ∈ get_camera_order (reg ++ [(nm, emptySeries)]) ∧
    (get_camera_colors (get_camera_order (reg ++ [(nm, emptySeries)]))).length =
      (get_camera_order (reg ++ [(nm, emptySeries)])).length := by
  have htb : tryBody reg ct ed = (reg ++ [(nm, emptySeries)], some PyExc.zeroDiv) := by
    unfold tryBody
    simp only [hname, hfilt, if_true, hT, hS, hF, htr, hstr, hftr, Bool.and_self]
    unfold appendSettings
    simp only [hz]
    unfold ensureEntry
    rw [hnew]
  refine ⟨?_, ?_, ?_, ?_⟩
  · unfold processOneFile
    rw [if_pos (show is_supported_image heif (File.image n (some ed)).name = true from hsupp)]
    simp only [htb]
  · simp [sampleCount, lookupReg_append_self hnew, emptySeries]
  · apply mem_get_camera_order
    simp
  · exact length_get_camera_colors _

/-- C10 witness: first file of a new camera whose aperture rational is
`(4, 0)`. -/
theorem c10_entry_created_before_appends_witness :
    processOneFile true none [] (File.image "b.jpg" (some zeroDenomStopEd)) =
      ([("Acme X1", emptySeries)], [exifErrMsg "b.jpg"], false) ∧
    sampleCount [("Acme X1", emptySeries)] "Acme X1" = 0 ∧
    "Acme X1" ∈ get_camera_order [("Acme X1", emptySeries)] ∧
    (get_camera_colors (get_camera_order [("Acme X1", emptySeries)])).length =
      (get_camera_order [("Acme X1", emptySeries)]).length :=
  c10_entry_created_before_appends true none [] "b.jpg" "Acme X1" zeroDenomStopEd
    (.tup [1, 200]) (.tup [4, 0]) (.tup [50, 1]) (by decide) (by decide) (by decide)
    rfl rfl rfl (by decide) (by decide) (by decide) rfl rfl

end FocalStats
